import Mathlib

/-!
Verification of the proverb-selection logic of the Pashto-Proverb-of-the-Day
web application (`static/js/scripts.js`).

The script keeps two mutable session variables, `proverbs` (an array of
records fetched from `proverbs.json`) and `currentProverb` (initially null),
plus three text nodes for the displayed proverb, translation and meaning.
It selects a proverb deterministically from the UTC day-of-year
(`displayDailyProverb`), or randomly (`displayRandomProverb`), and offers
copy/share actions that format the current selection.

The embedding below models JavaScript numbers occurring here as integers
(all values involved are exact integers well below 2^53, so IEEE doubles
are exact on them), `Math.random()` as a rational in `[0, 1)`, JavaScript
array indexing as an `Option`-valued lookup (`undefined` out of range), and
an uncaught runtime exception in a handler as `Option.none`.
-/

/-- A record of `proverbs.json`: three string fields `proverb`,
`translation`, `meaning`. -/
structure ProverbRecord where
  proverb : String
  translation : String
  meaning : String
deriving DecidableEq

/-- Milliseconds per day, the `24 * 60 * 60 * 1000 = 86400000` of line 30
of `scripts.js`. -/
def msPerDay : Int := 86400000

/-- Modelled from the spec: the host `Date.UTC` day computation (the
proleptic Gregorian civil calendar used by ECMAScript dates).  Returns the
number of days from the epoch 1970-01-01 to the civil date `y-m-d`, with
`m` 1-based and `1 ≤ m ≤ 12`; the day `d` may lie outside its month, in
which case it extends linearly, exactly as ECMAScript `MakeDay`
normalisation does. -/
def daysFromCivil (y m d : Int) : Int :=
  let yy := if m ≤ 2 then y - 1 else y
  let era := yy / 400
  let yoe := yy - era * 400
  let doy := (153 * (if 2 < m then m - 3 else m + 9) + 2) / 5 + d - 1
  let doe := yoe * 365 + yoe / 4 - yoe / 100 + doy
  era * 146097 + doe - 719468

/-- Modelled from the spec: `Date.UTC(y, m, d)` with `m` 0-based as in
JavaScript, time-of-day arguments defaulted to zero.  Out-of-range months
are normalised into the year exactly as ECMAScript `MakeDay` does.  The
result is a timestamp in milliseconds since the epoch. -/
def dateUTC (y m d : Int) : Int :=
  daysFromCivil (y + m / 12) (m % 12 + 1) d * msPerDay

/-- The UTC civil-calendar observables of a JavaScript `Date` value: the
values its `getUTCFullYear`, `getUTCMonth` (0-based), `getUTCDate`
(day of month, 1-based) and time-of-day getters return.  Two `Date`
values fall on the same UTC calendar day exactly when their first three
fields agree. -/
structure JSDate where
  utcFullYear : Int
  utcMonth : Int
  utcDate : Int
  utcHours : Int
  utcMinutes : Int
  utcSeconds : Int
  utcMilliseconds : Int
deriving DecidableEq

/-- A valid `Date` has a month index in `[0, 11]` and a day of month in
`[1, 31]`; every JavaScript `Date` (other than an invalid NaN date)
satisfies this. -/
def JSDate.Valid (d : JSDate) : Prop :=
  0 ≤ d.utcMonth ∧ d.utcMonth ≤ 11 ∧ 1 ≤ d.utcDate ∧ d.utcDate ≤ 31

instance (d : JSDate) : Decidable d.Valid := by
  unfold JSDate.Valid; infer_instance

/-- `getUTCOrdinalDay` (lines 26-31 of `scripts.js`): zero-based UTC
day-of-year.  `start` is `Date.UTC(year, 0, 1)`, `today` is
`Date.UTC(year, month, date)`; their difference in milliseconds is divided
by `msPerDay` and floored (`Math.floor` on an exact integer quotient is
floor division). -/
def getUTCOrdinalDay (date : JSDate) : Int :=
  let start := dateUTC date.utcFullYear 0 1
  let today := dateUTC date.utcFullYear date.utcMonth date.utcDate
  let diff := today - start
  diff / msPerDay

/-- JavaScript array indexing `a[i]` for an integer `i`: the element when
`0 ≤ i < a.length`, `undefined` (here `none`) otherwise. -/
def jsIndex {α : Type} (l : List α) (i : Int) : Option α :=
  if 0 ≤ i then l[i.toNat]? else none

/-- The display-relevant session state of `scripts.js`: the `proverbs`
array and `currentProverb` variable (lines 9-10, initially `[]` and
`null`), and the text content of the proverb, translation and meaning DOM
nodes. -/
structure AppState where
  proverbs : List ProverbRecord
  currentProverb : Option ProverbRecord
  proverbText : String
  translationText : String
  meaningText : String
deriving DecidableEq

/-- The selection index computed on line 36 of `scripts.js`:
`getUTCOrdinalDay() % proverbs.length`, where the JavaScript `%` is the
truncated remainder `Int.tmod`. -/
def dailyIndex (n : Nat) (today : JSDate) : Int :=
  (getUTCOrdinalDay today).tmod (n : Int)

/-- `displayDailyProverb` (lines 34-42) at a given current date: early
return (state unchanged) on an empty collection, otherwise look up the
record at `dailyIndex`, set `currentProverb` and the three text nodes.
The mapped-over `none` models the `TypeError` thrown at
`currentProverb.proverb` when the index is out of range (impossible for a
valid date, since the ordinal day is then non-negative). -/
def displayDailyProverb (s : AppState) (today : JSDate) : Option AppState :=
  if s.proverbs.length = 0 then some s
  else
    (jsIndex s.proverbs (dailyIndex s.proverbs.length today)).map fun p =>
      { s with
        currentProverb := some p
        proverbText := p.proverb
        translationText := "\"" ++ p.translation ++ "\""
        meaningText := p.meaning }

/-- `displayRandomProverb` (lines 45-52): early return on an empty
collection, otherwise select index `Math.floor(Math.random() *
proverbs.length)`, where the `Math.random()` draw `r` is a number in
`[0, 1)`, modelled as a rational.  The mapped-over `none` models the
`TypeError` thrown when the index is out of range (impossible for a draw
in `[0, 1)`). -/
def displayRandomProverb (s : AppState) (r : ℚ) : Option AppState :=
  if s.proverbs.length = 0 then some s
  else
    (jsIndex s.proverbs ⌊r * (s.proverbs.length : ℚ)⌋).map fun p =>
      { s with
        currentProverb := some p
        proverbText := p.proverb
        translationText := "\"" ++ p.translation ++ "\""
        meaningText := p.meaning }

/-- The clipboard text built on line 57 of `scripts.js`. -/
def copyText (p : ProverbRecord) : String :=
  p.proverb ++ "\n\nTranslation: " ++ p.translation ++ "\nMeaning: " ++ p.meaning

/-- `copyProverb` (lines 55-65): early return when `currentProverb` is
null, otherwise hand `copyText` to `navigator.clipboard.writeText`.  The
handler assigns none of the session variables or text nodes, so the state
component is returned unchanged; the second component is the text written
to the clipboard, if any.  (The only DOM mutation is the transient copy
button label set in the promise success callback, modelled with the chain
below.) -/
def copyProverb (s : AppState) : AppState × Option String :=
  match s.currentProverb with
  | none => (s, none)
  | some p => (s, some (copyText p))

/-- The share text built on line 70 of `scripts.js`. -/
def shareText (p : ProverbRecord) : String :=
  "Pashto Proverb:\n" ++ p.proverb ++ "\n\nTranslation: " ++ p.translation

/-- The outward effect of `shareProverb`: nothing (no selection), a call of
`navigator.share` with a title and text, or the desktop `alert` fallback. -/
inductive ShareAction where
  | nothing : ShareAction
  | share : String → String → ShareAction
  | alertFallback : String → ShareAction
deriving DecidableEq

/-- `shareProverb` (lines 68-80): early return when `currentProverb` is
null; otherwise either `navigator.share({title, text})` when the share API
exists, or an `alert` fallback.  No session variable or text node is
assigned. -/
def shareProverb (s : AppState) (hasShareAPI : Bool) : AppState × ShareAction :=
  match s.currentProverb with
  | none => (s, ShareAction.nothing)
  | some p =>
    if hasShareAPI then
      (s, ShareAction.share "Pashto Proverb of the Day" (shareText p))
    else
      (s, ShareAction.alertFallback "Use the copy button to share this proverb.")

/-- The settled state of a host promise: fulfilled with a value, or
rejected with an error message. -/
inductive Promise (α : Type) where
  | resolved : α → Promise α
  | rejected : String → Promise α
deriving DecidableEq

/-- `p.then(f)`: maps the fulfilled value; a rejection passes through to
the derived promise. -/
def Promise.thenFn {α β : Type} : Promise α → (α → β) → Promise β
  | .resolved a, f => .resolved (f a)
  | .rejected e, _ => .rejected e

/-- A settled promise nobody attached a rejection handler to. -/
def Promise.isUnhandledRejection {α : Type} : Promise α → Bool
  | .resolved _ => false
  | .rejected _ => true

/-- The promise chain `copyProverb` attaches to the clipboard write (lines
58-64): `.then(successCallback)` with no `.catch`, so the chain's settled
state keeps any rejection of the clipboard API, and nothing is written to
the console.  First component: the settled chain; second: console output. -/
def copyProverbChain (clipboardWrite : Promise Unit) : Promise Unit × List String :=
  (clipboardWrite.thenFn (fun _ => ()), [])

/-- The promise chain `shareProverb` attaches to `navigator.share` (lines
72-75): `.catch(console.error)`, so a rejection is consumed (the derived
promise fulfills) and the error message is logged to the console. -/
def shareProverbChain (share : Promise Unit) : Promise Unit × List String :=
  match share with
  | .resolved a => (.resolved a, [])
  | .rejected e => (.resolved (), [e])

/-- The one-shot result of the `fetch('proverbs.json')` started on page
load (lines 13-23), together with the current date at which the success
callback runs `displayDailyProverb`. -/
inductive LoadResult where
  | success : List ProverbRecord → JSDate → LoadResult
  | failure : LoadResult

/-- The user-triggered events wired on lines 83-87: the new-proverb button
(with the `Math.random()` draw it consumes), the copy button, and the
share button (with whether `navigator.share` exists). -/
inductive UserEvent where
  | clickNew : ℚ → UserEvent
  | clickCopy : UserEvent
  | clickShare : Bool → UserEvent

/-- The state right after `DOMContentLoaded` (lines 9-10): empty
collection, null selection, and whatever text the static page holds in the
three nodes. -/
def initState (pt tt mt : String) : AppState :=
  { proverbs := []
    currentProverb := none
    proverbText := pt
    translationText := tt
    meaningText := mt }

/-- The fixed Pashto diagnostic shown when the fetch fails (line 22). -/
def fetchFailText : String := "متلونه په پورته کولو کې پاتې راغلل."

/-- Settling of the load: on success (lines 15-19) the data becomes the
collection and `displayDailyProverb` runs at the current date; on failure
(lines 20-23) the proverb node shows the fixed diagnostic. -/
def applyLoad (s : AppState) : LoadResult → Option AppState
  | .success data today => displayDailyProverb { s with proverbs := data } today
  | .failure => some { s with proverbText := fetchFailText }

/-- One user event dispatch (lines 83-87).  Copy and share touch no
session variable, so only their state component matters here. -/
def applyEvent (s : AppState) : UserEvent → Option AppState
  | .clickNew r => displayRandomProverb s r
  | .clickCopy => some (copyProverb s).1
  | .clickShare hs => some (shareProverb s hs).1

/-- A whole session: initial state, the single load settling, then a
sequence of user events.  `none` models a session interrupted by an
uncaught handler exception (which cannot happen for browser-conforming
inputs). -/
def runSession (pt tt mt : String) (load : LoadResult)
    (events : List UserEvent) : Option AppState :=
  (applyLoad (initState pt tt mt) load).bind fun s => events.foldlM applyEvent s

/-- The states a session can actually be in. -/
def Reachable (s : AppState) : Prop :=
  ∃ pt tt mt load events, runSession pt tt mt load events = some s

/-- The string `sub` occurs contiguously inside `s`. -/
def OccursIn (sub s : String) : Prop :=
  ∃ a b, s = a ++ sub ++ b

/-- The selection invariant: whatever `currentProverb` points to is an
element of the loaded collection. -/
def SelectionInv (s : AppState) : Prop :=
  ∀ p, s.currentProverb = some p → p ∈ s.proverbs

/-- On a valid date the ordinal day lands in `[0, 365]`: the day-of-year
count never precedes January 1 and never exceeds the length of a leap
year. -/
theorem getUTCOrdinalDay_bounds (d : JSDate) (h : d.Valid) :
    0 ≤ getUTCOrdinalDay d ∧ getUTCOrdinalDay d ≤ 365 := by
  obtain ⟨h1, h2, h3, h4⟩ := h
  unfold getUTCOrdinalDay dateUTC daysFromCivil msPerDay
  simp only
  split_ifs <;> omega

/-- The daily index of a non-empty collection at a valid date agrees with
the mathematical `ordinalDay mod length`, a natural number below the
length. -/
theorem dailyIndex_eq_mod (n : Nat) (d : JSDate) (_hn : 0 < n) (hv : d.Valid) :
    dailyIndex n d = (((getUTCOrdinalDay d).toNat % n : Nat) : Int) := by
  obtain ⟨h0, _⟩ := getUTCOrdinalDay_bounds d hv
  unfold dailyIndex
  rw [Int.tmod_eq_emod h0 (Int.natCast_nonneg n)]
  conv_lhs => rw [← Int.toNat_of_nonneg h0]
  push_cast
  ring

/-- Indexing by a cast natural number that is in range yields the list
element. -/
theorem jsIndex_natCast {α : Type} (l : List α) (i : Nat) (h : i < l.length) :
    jsIndex l (i : Int) = some (l.get ⟨i, h⟩) := by
  unfold jsIndex
  rw [if_pos (Int.natCast_nonneg i)]
  simp [List.getElem?_eq_getElem h]

/-- C1: for every non-empty collection and every (valid) date, the daily
selection is the record at position `ordinalDay mod length`, and the
display state is updated from exactly that record. -/
theorem daily_selects_ordinal_mod (s : AppState) (d : JSDate)
    (hne : s.proverbs ≠ []) (hv : d.Valid) :
    ∃ p : ProverbRecord,
      s.proverbs[(getUTCOrdinalDay d).toNat % s.proverbs.length]? = some p ∧
      displayDailyProverb s d = some { s with
        currentProverb := some p
        proverbText := p.proverb
        translationText := "\"" ++ p.translation ++ "\""
        meaningText := p.meaning } := by
  have hn : 0 < s.proverbs.length := List.length_pos.mpr hne
  have hlt : (getUTCOrdinalDay d).toNat % s.proverbs.length < s.proverbs.length :=
    Nat.mod_lt _ hn
  refine ⟨s.proverbs.get ⟨_, hlt⟩, ?_, ?_⟩
  · simp [List.getElem?_eq_getElem hlt]
  · unfold displayDailyProverb
    rw [if_neg (by omega), dailyIndex_eq_mod _ _ hn hv, jsIndex_natCast _ _ hlt]
    rfl

/-- Witness for C1: with a three-record collection and the UTC date
2024-01-05 (ordinal day 4), the selected record is the one at index
`4 mod 3 = 1` and the display shows its fields. -/
theorem daily_selects_ordinal_mod_witness :
    displayDailyProverb
        ⟨[⟨"الف", "A", "M"⟩, ⟨"ب", "B", "N"⟩, ⟨"ج", "C", "O"⟩], none, "", "", ""⟩
        ⟨2024, 0, 5, 14, 30, 0, 0⟩ =
      some ⟨[⟨"الف", "A", "M"⟩, ⟨"ب", "B", "N"⟩, ⟨"ج", "C", "O"⟩],
        some ⟨"ب", "B", "N"⟩, "ب", "\"B\"", "N"⟩ := by
  obtain ⟨p, hp, he⟩ := daily_selects_ordinal_mod
    ⟨[⟨"الف", "A", "M"⟩, ⟨"ب", "B", "N"⟩, ⟨"ج", "C", "O"⟩], none, "", "", ""⟩
    ⟨2024, 0, 5, 14, 30, 0, 0⟩ (by decide) (by decide)
  have hidx : (getUTCOrdinalDay ⟨2024, 0, 5, 14, 30, 0, 0⟩).toNat % 3 = 1 := by decide
  rw [show ([⟨"الف", "A", "M"⟩, ⟨"ب", "B", "N"⟩,
      (⟨"ج", "C", "O"⟩ : ProverbRecord)].length) = 3 from rfl, hidx] at hp
  have hp2 : p = ⟨"ب", "B", "N"⟩ := by
    simpa using hp.symm
  rw [hp2] at he
  exact he

/-- C2: the ordinal-day computation returns the whole number of days
between the UTC midnight of the date and the UTC midnight of January 1 of
its UTC year, reads only the UTC year, month and day fields, and maps the
UTC dates 2024-01-01, 2024-01-04 and 2024-01-05 to 0, 3 and 4. -/
theorem ordinalDay_midnight_difference (d e : JSDate)
    (hy : d.utcFullYear = e.utcFullYear) (hm : d.utcMonth = e.utcMonth)
    (hd : d.utcDate = e.utcDate) :
    msPerDay * getUTCOrdinalDay d =
        dateUTC d.utcFullYear d.utcMonth d.utcDate - dateUTC d.utcFullYear 0 1 ∧
    getUTCOrdinalDay d = getUTCOrdinalDay e ∧
    getUTCOrdinalDay ⟨2024, 0, 1, 0, 0, 0, 0⟩ = 0 ∧
    getUTCOrdinalDay ⟨2024, 0, 4, 12, 30, 0, 0⟩ = 3 ∧
    getUTCOrdinalDay ⟨2024, 0, 5, 23, 59, 59, 999⟩ = 4 := by
  refine ⟨?_, ?_, by decide, by decide, by decide⟩
  · simp only [getUTCOrdinalDay, dateUTC]
    rw [← sub_mul, Int.mul_ediv_cancel _ (by decide : msPerDay ≠ 0)]
    ring
  · unfold getUTCOrdinalDay
    rw [hy, hm, hd]

/-- Witness for C2 at the UTC calendar day 2024-04-15, taken at two
different times of day. -/
theorem ordinalDay_midnight_difference_witness :
    msPerDay * getUTCOrdinalDay ⟨2024, 3, 15, 7, 0, 0, 0⟩ =
        dateUTC 2024 3 15 - dateUTC 2024 0 1 ∧
    getUTCOrdinalDay ⟨2024, 3, 15, 7, 0, 0, 0⟩ =
        getUTCOrdinalDay ⟨2024, 3, 15, 22, 5, 9, 1⟩ ∧
    getUTCOrdinalDay ⟨2024, 0, 1, 0, 0, 0, 0⟩ = 0 ∧
    getUTCOrdinalDay ⟨2024, 0, 4, 12, 30, 0, 0⟩ = 3 ∧
    getUTCOrdinalDay ⟨2024, 0, 5, 23, 59, 59, 999⟩ = 4 :=
  ordinalDay_midnight_difference ⟨2024, 3, 15, 7, 0, 0, 0⟩
    ⟨2024, 3, 15, 22, 5, 9, 1⟩ rfl rfl rfl

/-- C3: the daily selection is identical at any two date-times that fall
on the same UTC calendar day; time-of-day is ignored (and local time zone
plays no part: only the UTC fields enter the computation). -/
theorem daily_deterministic_per_utc_day (s : AppState) (d1 d2 : JSDate)
    (_hne : s.proverbs ≠ []) (hy : d1.utcFullYear = d2.utcFullYear)
    (hm : d1.utcMonth = d2.utcMonth) (hd : d1.utcDate = d2.utcDate) :
    displayDailyProverb s d1 = displayDailyProverb s d2 := by
  have ho : getUTCOrdinalDay d1 = getUTCOrdinalDay d2 := by
    unfold getUTCOrdinalDay
    rw [hy, hm, hd]
  unfold displayDailyProverb dailyIndex
  rw [ho]

/-- Witness for C3: morning and late evening of UTC 2025-06-30 give the
same result on a two-record collection. -/
theorem daily_deterministic_per_utc_day_witness :
    displayDailyProverb ⟨[⟨"الف", "A", "M"⟩, ⟨"ب", "B", "N"⟩], none, "", "", ""⟩
        ⟨2025, 5, 30, 1, 0, 0, 0⟩ =
      displayDailyProverb ⟨[⟨"الف", "A", "M"⟩, ⟨"ب", "B", "N"⟩], none, "", "", ""⟩
        ⟨2025, 5, 30, 23, 45, 0, 0⟩ :=
  daily_deterministic_per_utc_day
    ⟨[⟨"الف", "A", "M"⟩, ⟨"ب", "B", "N"⟩], none, "", "", ""⟩
    ⟨2025, 5, 30, 1, 0, 0, 0⟩ ⟨2025, 5, 30, 23, 45, 0, 0⟩ (by decide) rfl rfl rfl

/-- C4: for a fixed non-empty collection, the index selected for the
ordinal day `k + 1` is the index for day `k` plus one, modulo the
collection length. -/
theorem daily_consecutive_indices (s : AppState) (d e : JSDate)
    (hne : s.proverbs ≠ []) (hv : d.Valid)
    (_hyear : e.utcFullYear = d.utcFullYear)
    (hsucc : getUTCOrdinalDay e = getUTCOrdinalDay d + 1) :
    dailyIndex s.proverbs.length e =
      (dailyIndex s.proverbs.length d + 1) % (s.proverbs.length : Int) := by
  have hn : 0 < s.proverbs.length := List.length_pos.mpr hne
  obtain ⟨h0, _⟩ := getUTCOrdinalDay_bounds d hv
  unfold dailyIndex
  rw [hsucc, Int.tmod_eq_emod h0 (Int.natCast_nonneg _),
    Int.tmod_eq_emod (by omega) (Int.natCast_nonneg _), Int.emod_add_emod]

/-- Witness for C4: on a three-record collection, UTC 2024-01-04 (ordinal
day 3, index 0) is followed by UTC 2024-01-05 (ordinal day 4, index 1). -/
theorem daily_consecutive_indices_witness :
    dailyIndex 3 ⟨2024, 0, 5, 0, 0, 0, 0⟩ =
      (dailyIndex 3 ⟨2024, 0, 4, 0, 0, 0, 0⟩ + 1) % (3 : Int) :=
  daily_consecutive_indices
    ⟨[⟨"الف", "A", "M"⟩, ⟨"ب", "B", "N"⟩, ⟨"ج", "C", "O"⟩], none, "", "", ""⟩
    ⟨2024, 0, 4, 0, 0, 0, 0⟩ ⟨2024, 0, 5, 0, 0, 0, 0⟩
    (by decide) (by decide) rfl (by decide)

/-- C5: on an empty collection, both selection operations are no-ops:
they select nothing, leave every piece of display state unchanged, and
throw no fault (the result is `some`, never the exceptional `none`). -/
theorem empty_collection_noop (s : AppState) (d : JSDate) (r : ℚ)
    (h : s.proverbs = []) :
    displayDailyProverb s d = some s ∧ displayRandomProverb s r = some s := by
  constructor <;> simp [displayDailyProverb, displayRandomProverb, h]

/-- Witness for C5 on the literal empty collection. -/
theorem empty_collection_noop_witness :
    displayDailyProverb ⟨[], none, "p", "t", "m"⟩ ⟨2024, 0, 1, 0, 0, 0, 0⟩ =
        some ⟨[], none, "p", "t", "m"⟩ ∧
      displayRandomProverb ⟨[], none, "p", "t", "m"⟩ 0 =
        some ⟨[], none, "p", "t", "m"⟩ :=
  empty_collection_noop ⟨[], none, "p", "t", "m"⟩ ⟨2024, 0, 1, 0, 0, 0, 0⟩ 0 rfl

/-- C6: for every selected record, the copy action hands the clipboard
exactly the proverb, a blank line, a `Translation: ` line and a
`Meaning: ` line, in that order. -/
theorem copy_text_layout (s : AppState) (p : ProverbRecord)
    (h : s.currentProverb = some p) :
    (copyProverb s).2 =
      some (p.proverb ++ "\n\n" ++ ("Translation: " ++ p.translation) ++ "\n" ++
        ("Meaning: " ++ p.meaning)) := by
  simp only [copyProverb, h, copyText]
  congr 1
  rw [show ("\n\nTranslation: " : String) = "\n\n" ++ "Translation: " by decide,
    show ("\nMeaning: " : String) = "\n" ++ "Meaning: " by decide]
  simp only [String.append_assoc]

/-- Witness for C6: the copy text of the record from the specification
example, fully evaluated. -/
theorem copy_text_layout_witness :
    (copyProverb ⟨[⟨"الف", "A", "M"⟩], some ⟨"الف", "A", "M"⟩,
        "الف", "\"A\"", "M"⟩).2 =
      some "الف\n\nTranslation: A\nMeaning: M" :=
  (copy_text_layout ⟨[⟨"الف", "A", "M"⟩], some ⟨"الف", "A", "M"⟩,
    "الف", "\"A\"", "M"⟩ ⟨"الف", "A", "M"⟩ rfl).trans (by decide)

/-- C7 counterexample: a clipboard-API failure is neither handled nor
reported — `copyProverb` attaches only a success callback (line 58 has no
`catch`), so the rejection escapes as an unhandled promise rejection and
the console log stays empty. -/
theorem clipboard_failure_unhandled :
    (copyProverbChain (Promise.rejected "NotAllowedError")).1.isUnhandledRejection
        = true ∧
    (copyProverbChain (Promise.rejected "NotAllowedError")).2 = [] :=
  ⟨rfl, rfl⟩

/-- C7 amended: share-API failures are caught by `.catch(console.error)`,
reported on the console and non-fatal, while clipboard-API failures
propagate out of the `.then` chain as unhandled promise rejections with
nothing logged. -/
theorem promise_failure_handling (e : String) :
    (shareProverbChain (Promise.rejected e)).1.isUnhandledRejection = false ∧
    (shareProverbChain (Promise.rejected e)).2 = [e] ∧
    (copyProverbChain (Promise.rejected e)).1 = Promise.rejected e ∧
    (copyProverbChain (Promise.rejected e)).2 = [] :=
  ⟨rfl, rfl, rfl, rfl⟩

/-- C8: for every non-empty collection and every random draw in `[0, 1)`,
the selected index lies in `[0, length)`, so the array access is in bounds
and the selection is the record at that index. -/
theorem random_index_in_bounds (s : AppState) (r : ℚ)
    (hne : s.proverbs ≠ []) (h0 : 0 ≤ r) (h1 : r < 1) :
    0 ≤ ⌊r * (s.proverbs.length : ℚ)⌋ ∧
    ⌊r * (s.proverbs.length : ℚ)⌋ < (s.proverbs.length : Int) ∧
    ∃ p : ProverbRecord,
      s.proverbs[(⌊r * (s.proverbs.length : ℚ)⌋).toNat]? = some p ∧
      displayRandomProverb s r = some { s with
        currentProverb := some p
        proverbText := p.proverb
        translationText := "\"" ++ p.translation ++ "\""
        meaningText := p.meaning } := by
  have hn : 0 < s.proverbs.length := List.length_pos.mpr hne
  have hfl0 : 0 ≤ ⌊r * (s.proverbs.length : ℚ)⌋ :=
    Int.floor_nonneg.mpr (mul_nonneg h0 (by positivity))
  have hflt : ⌊r * (s.proverbs.length : ℚ)⌋ < (s.proverbs.length : Int) := by
    apply Int.floor_lt.mpr
    push_cast
    calc r * (s.proverbs.length : ℚ) < 1 * (s.proverbs.length : ℚ) := by
          apply mul_lt_mul_of_pos_right h1
          exact_mod_cast hn
      _ = (s.proverbs.length : ℚ) := one_mul _
  have hlt : (⌊r * (s.proverbs.length : ℚ)⌋).toNat < s.proverbs.length := by omega
  refine ⟨hfl0, hflt, s.proverbs.get ⟨_, hlt⟩, ?_, ?_⟩
  · simp [List.getElem?_eq_getElem hlt]
  · unfold displayRandomProverb jsIndex
    rw [if_neg (by omega), if_pos hfl0, List.getElem?_eq_getElem hlt]
    rfl

/-- Witness for C8 at the draw `0` on a two-record collection: index 0 is
selected and displayed. -/
theorem random_index_in_bounds_witness :
    displayRandomProverb ⟨[⟨"الف", "A", "M"⟩, ⟨"ب", "B", "N"⟩],
        none, "", "", ""⟩ 0 =
      some ⟨[⟨"الف", "A", "M"⟩, ⟨"ب", "B", "N"⟩],
        some ⟨"الف", "A", "M"⟩, "الف", "\"A\"", "M"⟩ := by
  obtain ⟨hf0, hflt, p, hp, he⟩ := random_index_in_bounds
    ⟨[⟨"الف", "A", "M"⟩, ⟨"ب", "B", "N"⟩], none, "", "", ""⟩ 0
    (by decide) le_rfl (by norm_num)
  have hidx : (⌊(0 : ℚ) *
      (([⟨"الف", "A", "M"⟩, (⟨"ب", "B", "N"⟩ : ProverbRecord)] :
        List ProverbRecord).length : ℚ)⌋).toNat = 0 := by
    rw [zero_mul, Int.floor_zero]
    rfl
  rw [hidx] at hp
  have hp2 : p = ⟨"الف", "A", "M"⟩ := by simpa using hp.symm
  rw [hp2] at he
  exact he

/-- C9 counterexample: for a record whose meaning string coincides with
its translation, the share text does contain the meaning field, so
"the share text does not contain the meaning field" fails as stated. -/
theorem share_text_contains_meaning_cex :
    OccursIn (ProverbRecord.meaning ⟨"الف", "A", "A"⟩)
      (shareText ⟨"الف", "A", "A"⟩) :=
  ⟨"Pashto Proverb:\nالف\n\nTranslation: ", "", by decide⟩

/-- C9 amended: the share text contains the `Pashto Proverb:` header, the
proverb and the translation prefixed by `Translation: `, and the meaning
is omitted from its construction — the text never depends on the meaning
field (though the meaning string may still occur in it coincidentally, as
when it equals the translation). -/
theorem share_text_layout (p : ProverbRecord) (m : String) :
    OccursIn "Pashto Proverb:" (shareText p) ∧
    OccursIn p.proverb (shareText p) ∧
    OccursIn ("Translation: " ++ p.translation) (shareText p) ∧
    shareText { p with meaning := m } = shareText p := by
  refine ⟨⟨"", "\n" ++ p.proverb ++ "\n\nTranslation: " ++ p.translation, ?_⟩,
    ⟨"Pashto Proverb:\n", "\n\nTranslation: " ++ p.translation, ?_⟩,
    ⟨"Pashto Proverb:\n" ++ p.proverb ++ "\n\n", "", ?_⟩, rfl⟩
  · simp only [shareText]
    rw [show ("Pashto Proverb:\n" : String) = "Pashto Proverb:" ++ "\n" by decide]
    simp only [String.append_assoc, String.empty_append]
  · simp only [shareText]
    simp only [String.append_assoc]
  · simp only [shareText]
    rw [show ("\n\nTranslation: " : String) = "\n\n" ++ "Translation: " by decide]
    simp only [String.append_assoc, String.append_empty]

/-- A successful `jsIndex` lookup returns an element of the list. -/
theorem jsIndex_mem {α : Type} {l : List α} {i : Int} {a : α}
    (h : jsIndex l i = some a) : a ∈ l := by
  unfold jsIndex at h
  split_ifs at h
  exact List.getElem?_mem h

/-- Both display handlers preserve the selection invariant: they either
leave the state alone or install a record they just looked up in the
collection, which they do not modify. -/
theorem selectionInv_display (s t : AppState) (i : Int)
    (hinv : SelectionInv s)
    (h : (if s.proverbs.length = 0 then some s
      else (jsIndex s.proverbs i).map fun p =>
        { s with
          currentProverb := some p
          proverbText := p.proverb
          translationText := "\"" ++ p.translation ++ "\""
          meaningText := p.meaning }) = some t) :
    SelectionInv t := by
  by_cases hlen : s.proverbs.length = 0
  · rw [if_pos hlen] at h
    obtain rfl := Option.some.inj h
    exact hinv
  · rw [if_neg hlen] at h
    rcases hj : jsIndex s.proverbs i with _ | p
    · rw [hj] at h
      simp at h
    · rw [hj] at h
      obtain rfl := Option.some.inj h
      intro q hq
      obtain rfl := Option.some.inj hq
      exact jsIndex_mem hj

/-- The copy handler never reassigns any session variable or text node. -/
theorem copyProverb_fst (s : AppState) : (copyProverb s).1 = s := by
  unfold copyProverb
  cases s.currentProverb <;> rfl

/-- The share handler never reassigns any session variable or text node. -/
theorem shareProverb_fst (s : AppState) (hs : Bool) :
    (shareProverb s hs).1 = s := by
  unfold shareProverb
  cases s.currentProverb with
  | none => rfl
  | some p => cases hs <;> rfl

/-- Every user event preserves the selection invariant. -/
theorem selectionInv_event (s t : AppState) (e : UserEvent)
    (hinv : SelectionInv s) (h : applyEvent s e = some t) : SelectionInv t := by
  cases e with
  | clickNew r =>
    simp only [applyEvent] at h
    unfold displayRandomProverb at h
    exact selectionInv_display s t _ hinv h
  | clickCopy =>
    simp only [applyEvent] at h
    rw [copyProverb_fst] at h
    obtain rfl := Option.some.inj h
    exact hinv
  | clickShare hs =>
    simp only [applyEvent] at h
    rw [shareProverb_fst] at h
    obtain rfl := Option.some.inj h
    exact hinv

/-- The load settling establishes the selection invariant (it starts from
the null selection of the initial state). -/
theorem selectionInv_load (pt tt mt : String) (load : LoadResult)
    (t : AppState) (h : applyLoad (initState pt tt mt) load = some t) :
    SelectionInv t := by
  cases load with
  | success data d =>
    unfold applyLoad displayDailyProverb at h
    refine selectionInv_display _ t _ ?_ h
    intro q hq
    exact absurd hq (by simp [initState])
  | failure =>
    unfold applyLoad at h
    obtain rfl := Option.some.inj h
    intro q hq
    exact absurd hq (by simp [initState])

/-- Folding any sequence of user events preserves the selection
invariant. -/
theorem selectionInv_events (events : List UserEvent) (s t : AppState)
    (hinv : SelectionInv s) (h : events.foldlM applyEvent s = some t) :
    SelectionInv t := by
  induction events generalizing s with
  | nil =>
    rw [List.foldlM_nil] at h
    obtain rfl := Option.some.inj h
    exact hinv
  | cons e es ih =>
    rw [List.foldlM_cons] at h
    rcases ha : applyEvent s e with _ | s1
    · rw [ha] at h
      simp at h
    · rw [ha] at h
      exact ih s1 (selectionInv_event s s1 e hinv ha) h

/-- Every reachable state satisfies the selection invariant. -/
theorem reachable_selectionInv (s : AppState) (hr : Reachable s) :
    SelectionInv s := by
  obtain ⟨pt, tt, mt, load, events, h⟩ := hr
  unfold runSession at h
  rcases hl : applyLoad (initState pt tt mt) load with _ | s0
  · rw [hl] at h
    simp at h
  · rw [hl] at h
    exact selectionInv_events events s0 s (selectionInv_load pt tt mt load s0 hl) h

/-- C10: in every reachable state the current selection is absent or an
element of the loaded collection; the copy and share handlers change
neither the selection nor the collection (nor any display text), and both
are no-ops when no selection exists. -/
theorem session_selection_invariant (s : AppState) (hs : Bool)
    (hr : Reachable s) :
    (s.currentProverb = none ∨
      ∃ p, s.currentProverb = some p ∧ p ∈ s.proverbs) ∧
    (copyProverb s).1 = s ∧
    (shareProverb s hs).1 = s ∧
    (s.currentProverb = none →
      (copyProverb s).2 = none ∧ (shareProverb s hs).2 = ShareAction.nothing) := by
  have hinv := reachable_selectionInv s hr
  refine ⟨?_, copyProverb_fst s, shareProverb_fst s hs, ?_⟩
  · rcases hc : s.currentProverb with _ | p
    · exact Or.inl rfl
    · exact Or.inr ⟨p, rfl, hinv p hc⟩
  · intro hc
    constructor
    · unfold copyProverb
      rw [hc]
    · unfold shareProverb
      rw [hc]

/-- Witness for C10 at the reachable state left by a failed fetch. -/
theorem session_selection_invariant_witness :
    ((⟨[], none, fetchFailText, "t", "m"⟩ : AppState).currentProverb = none ∨
      ∃ p, (⟨[], none, fetchFailText, "t", "m"⟩ : AppState).currentProverb = some p ∧
        p ∈ (⟨[], none, fetchFailText, "t", "m"⟩ : AppState).proverbs) ∧
    (copyProverb ⟨[], none, fetchFailText, "t", "m"⟩).1 =
      (⟨[], none, fetchFailText, "t", "m"⟩ : AppState) ∧
    (shareProverb ⟨[], none, fetchFailText, "t", "m"⟩ true).1 =
      (⟨[], none, fetchFailText, "t", "m"⟩ : AppState) ∧
    ((⟨[], none, fetchFailText, "t", "m"⟩ : AppState).currentProverb = none →
      (copyProverb ⟨[], none, fetchFailText, "t", "m"⟩).2 = none ∧
      (shareProverb ⟨[], none, fetchFailText, "t", "m"⟩ true).2 =
        ShareAction.nothing) :=
  session_selection_invariant ⟨[], none, fetchFailText, "t", "m"⟩ true
    ⟨"p", "t", "m", LoadResult.failure, [], rfl⟩
